import Mathlib

/-!
Shallow embedding of `src/agent.py` (an automated pull-request reviewer).

The Python code drives two external services (a repository host and a chat
completion service).  We embed each remote operation as a field of an
environment record `Env` giving that operation's outcome, and each method of
`PRReviewer` as a function that threads the environment and records the
sequence of remote calls it performs in a trace (`List Call`).  Per-file
analysis (`_analyze_file`) catches every exception and returns an error
finding, so its embedding is a total function returning a `Finding` together
with its trace.  The `timestamp` field of a finding (`datetime.utcnow()`)
is real time and plays no role in any claim; it is not modelled.  Intra-batch
tasks run concurrently in the source (`asyncio.gather`); their call traces
are concatenated here in launch order — the claims below only depend on
which calls occur, never on their interleaving.
-/

namespace PRReview

/-- A changed file as returned by the host (`pr.get_files()` element):
`filename` and optional `patch` (may be `None` in the API). -/
structure PRFile where
  filename : String
  patch : Option String
deriving DecidableEq, Repr

/-- A per-file finding: `{"filename": ..., "analysis": ...}` (the
`timestamp` field is real time, not modelled). -/
structure Finding where
  filename : String
  analysis : String
deriving DecidableEq, Repr

/-- The chat completion request submitted by `_analyze_file_content`:
model identifier plus the system and user message contents.
(`temperature` is a float and not inspected by any claim.) -/
structure CompletionRequest where
  model : String
  system_content : String
  user_content : String
deriving DecidableEq, Repr

/-- Embeds `PRReviewConfig` (pydantic model) — the fields the embedded code reads.
`openai_temperature`, `review_categories`, `ignore_patterns` and
`max_changes_per_file` are never read by the embedded methods. -/
structure PRReviewConfig where
  max_files_to_review : Nat := 50
  openai_model : String := "gpt-4"
  batch_size : Nat := 5
  language_specific_rules : List (String × List String) :=
    [("python",
       ["PEP 8 compliance", "Type hints", "Docstrings", "Error handling",
        "Code complexity"]),
     ("javascript",
       ["ESLint rules", "Modern ES6+ features", "Error handling",
        "Code organization"])]

/-- The default configuration `PRReviewConfig()` built in `__init__`. -/
def default_config : PRReviewConfig := {}

/-- Attributes of the pull-request object used by `fetch_pr_details`. -/
structure PRMeta where
  title : String
  body : Option String
  base_ref : String
  head_ref : String
  created_at : String
  updated_at : String
deriving DecidableEq, Repr

/-- The dictionary returned by `fetch_pr_details`. -/
structure PRDetails where
  title : String
  description : Option String
  files : List String
  base_branch : String
  head_branch : String
  created_at : String
  updated_at : String
deriving DecidableEq, Repr

/-- One remote call made during a run. -/
inductive Call where
  | get_repo : Call
  | get_pull : Call
  | get_files : Call
  | get_contents (path : String) : Call
  | chat_completion (req : CompletionRequest) : Call
  | create_review (body : String) : Call
deriving DecidableEq, Repr

/-- Outcomes of the remote operations for one run.  `contentRes path` is the
result of `repo.get_contents(path, ref=pr.head.ref)`: `.ok (some s)` when the
object has `decoded_content` that decodes to `s`, `.ok none` when the
attribute is absent (the code then uses `""`), `.error e` when the call or
the decode raises.  `completeRes` maps the submitted request to the
completion text or an error. -/
structure Env where
  repoRes : Except String Unit
  pullRes : Except String PRMeta
  filesRes : Except String (List PRFile)
  contentRes : String → Except String (Option String)
  completeRes : CompletionRequest → Except String String
  createReviewRes : String → Except String Unit

/-- Result of one embedded method: the remote calls it performed, and its
value or the exception it raised. -/
structure Res (α : Type) where
  trace : List Call
  result : Except String α
deriving Repr

/-- Embeds `filename.split('.')` — Python `str.split` with a one-character
separator, over the string's characters.  Always returns a non-empty list;
`"".split('.') == ['']`. -/
def py_split (c : Char) : List Char → List (List Char)
  | [] => [[]]
  | x :: xs =>
    let r := py_split c xs
    if x = c then [] :: r
    else
      match r with
      | [] => [[x]]
      | y :: ys => (x :: y) :: ys

/-- Embeds `filename.split('.')[-1].lower()` (line 160): the last
`'.'`-separated component of the path, lower-cased character-wise
(`str.lower()` agrees with `Char.toLower` on the ASCII paths involved). -/
def file_extension (filename : String) : String :=
  ⟨((py_split '.' filename.data).getLastD []).map Char.toLower⟩

/-- Embeds `dict.get(key, [])` over the language rules mapping (line 161). -/
def dict_get (d : List (String × List String)) (key : String) : List String :=
  match d.find? (fun kv => kv.1 = key) with
  | some kv => kv.2
  | none => []

/-- The user prompt literal of `_analyze_file_content` (lines 163–179),
with the f-string's 12-space indentation reproduced byte for byte. -/
def review_prompt (filename file_ext : String) (language_rules : List String)
    (patch : String) : String :=
  "\n" ++
  "            Review the following code changes and provide feedback on:\n" ++
  "            1. Code quality and best practices\n" ++
  "            2. Potential security issues\n" ++
  "            3. Performance considerations\n" ++
  "            4. Maintainability\n" ++
  "            5. Testing coverage\n" ++
  "            \n" ++
  "            File: " ++ filename ++ "\n" ++
  "            Language: " ++ file_ext ++ "\n" ++
  "            Specific rules to check: " ++
    String.intercalate ", " language_rules ++ "\n" ++
  "            \n" ++
  "            Code changes:\n" ++
  "            " ++ patch ++ "\n" ++
  "            \n" ++
  "            Please provide structured feedback with specific examples and suggestions for improvement.\n" ++
  "            "

/-- The fixed system message of the completion call (line 184). -/
def system_message : String :=
  "You are an expert code reviewer focusing on code quality, security, and best practices."

/-- The completion request `_analyze_file_content` submits (lines 160–188).
The `content` parameter mirrors the method's first argument, which the
method receives but never uses when building the request. -/
def build_request (cfg : PRReviewConfig) (content filename patch : String) :
    CompletionRequest :=
  let file_ext := file_extension filename
  let language_rules := dict_get cfg.language_specific_rules file_ext
  let prompt := review_prompt filename file_ext language_rules patch
  { model := cfg.openai_model
    system_content := system_message
    user_content := prompt }

/-- Embeds `_analyze_file_content` (lines 157–197): build the request, submit it,
return the finding; any completion failure is re-raised. -/
def analyze_file_content (cfg : PRReviewConfig) (env : Env)
    (content filename patch : String) : Res Finding :=
  let req := build_request cfg content filename patch
  match env.completeRes req with
  | .ok text => ⟨[.chat_completion req], .ok ⟨filename, text⟩⟩
  | .error e => ⟨[.chat_completion req], .error e⟩

/-- Embeds `_analyze_file` (lines 110–133): fetch content at head ref, analyze;
every exception is caught and downgraded to a finding whose analysis is
`"Error analyzing file: " ++ e`.  Total: always yields a finding. -/
def analyze_file (cfg : PRReviewConfig) (env : Env) (file : PRFile) :
    Finding × List Call :=
  match env.contentRes file.filename with
  | .error e =>
      (⟨file.filename, "Error analyzing file: " ++ e⟩,
       [.get_contents file.filename])
  | .ok content =>
      let file_content := content.getD ""
      let r := analyze_file_content cfg env file_content file.filename
        (file.patch.getD "")
      match r.result with
      | .ok f => (f, .get_contents file.filename :: r.trace)
      | .error e =>
          (⟨file.filename, "Error analyzing file: " ++ e⟩,
           .get_contents file.filename :: r.trace)

/-- Embeds `range(0, stop, step)` for `step ≥ 1`: the batch start indices of the
loop at line 146.  `(stop + step - 1) / step` is `⌈stop / step⌉`. -/
def py_range_step (stop step : Nat) : List Nat :=
  List.range' 0 ((stop + step - 1) / step) step

/-- The batch partition of the loop at lines 146–147:
`files[i:i+batch_size]` for each `i` in `range(0, len(files), batch_size)`. -/
def batch_slices (B : Nat) (files : List PRFile) : List (List PRFile) :=
  (py_range_step files.length B).map fun i => (files.drop i).take B

/-- Embeds `analyze_code_changes` (lines 135–155): fetch repo, pull and file list,
truncate to `max_files_to_review`, process batches.  Each gathered task is
`analyze_file`, which never raises, so the `isinstance(r, Exception)`
filter at line 150 keeps every result. -/
def analyze_code_changes (cfg : PRReviewConfig) (env : Env) :
    Res (List Finding) :=
  match env.repoRes with
  | .error e => ⟨[.get_repo], .error e⟩
  | .ok _ =>
    match env.pullRes with
    | .error e => ⟨[.get_repo, .get_pull], .error e⟩
    | .ok _ =>
      match env.filesRes with
      | .error e => ⟨[.get_repo, .get_pull, .get_files], .error e⟩
      | .ok files0 =>
        let files := files0.take cfg.max_files_to_review
        let batches := (batch_slices cfg.batch_size files).map
          fun batch => batch.map (analyze_file cfg env)
        ⟨[.get_repo, .get_pull, .get_files] ++
           (batches.map fun br => (br.map Prod.snd).flatten).flatten,
         .ok (batches.map fun br => br.map Prod.fst).flatten⟩

/-- Embeds `fetch_pr_details` (lines 88–108): repo, pull, then the filename list;
any failure is re-raised after logging. -/
def fetch_pr_details (env : Env) : Res PRDetails :=
  match env.repoRes with
  | .error e => ⟨[.get_repo], .error e⟩
  | .ok _ =>
    match env.pullRes with
    | .error e => ⟨[.get_repo, .get_pull], .error e⟩
    | .ok pr =>
      match env.filesRes with
      | .error e => ⟨[.get_repo, .get_pull, .get_files], .error e⟩
      | .ok files =>
        ⟨[.get_repo, .get_pull, .get_files],
         .ok { title := pr.title, description := pr.body,
               files := files.map (·.filename),
               base_branch := pr.base_ref, head_branch := pr.head_ref,
               created_at := pr.created_at, updated_at := pr.updated_at }⟩

/-- The body accumulation loop of `post_review` (lines 205–207). -/
def review_body (reviews : List Finding) : String :=
  reviews.foldl
    (fun acc r => acc ++ "### " ++ r.filename ++ "\n" ++ r.analysis ++ "\n\n")
    "## AI Code Review Summary\n\n"

/-- Embeds `post_review` (lines 199–218): fetch repo and pull again, assemble the
body, create the review; failures are re-raised. -/
def post_review (env : Env) (reviews : List Finding) : Res Unit :=
  match env.repoRes with
  | .error e => ⟨[.get_repo], .error e⟩
  | .ok _ =>
    match env.pullRes with
    | .error e => ⟨[.get_repo, .get_pull], .error e⟩
    | .ok _ =>
      let body := review_body reviews
      ⟨[.get_repo, .get_pull, .create_review body], env.createReviewRes body⟩

/-- Embeds `review_pr` (lines 220–234): details, analysis, publication in sequence;
each stage's failure propagates and stops the run. -/
def review_pr (cfg : PRReviewConfig) (env : Env) : Res Unit :=
  let d := fetch_pr_details env
  match d.result with
  | .error e => ⟨d.trace, .error e⟩
  | .ok _ =>
    let a := analyze_code_changes cfg env
    match a.result with
    | .error e => ⟨d.trace ++ a.trace, .error e⟩
    | .ok reviews =>
      let p := post_review env reviews
      ⟨d.trace ++ a.trace ++ p.trace, p.result⟩

/-- Which of the two async handles `__aexit__` closes. -/
inductive CloseCall where
  | close_session : CloseCall
  | close_client : CloseCall
deriving DecidableEq, Repr

/-- Presence of the two handles (`self.session`, `self.openai_client`). -/
structure SessionState where
  session_present : Bool
  client_present : Bool

/-- Outcomes of `session.close()` and `openai_client.close()`. -/
structure CloseEnv where
  session_close : Except String Unit
  client_close : Except String Unit

/-- Embeds `__aexit__` (lines 76–81): close the session if present, then the
client if present.  There is no exception handling: a raise from either
`close()` propagates immediately. -/
def aexit (st : SessionState) (env : CloseEnv) :
    List CloseCall × Except String Unit :=
  if st.session_present then
    match env.session_close with
    | .error e => ([.close_session], .error e)
    | .ok _ =>
      if st.client_present then
        match env.client_close with
        | .error e => ([.close_session, .close_client], .error e)
        | .ok _ => ([.close_session, .close_client], .ok ())
      else ([.close_session], .ok ())
  else
    if st.client_present then
      match env.client_close with
      | .error e => ([.close_client], .error e)
      | .ok _ => ([.close_client], .ok ())
    else ([], .ok ())



/-! ### Concrete fixtures for witnesses -/

/-- A concrete pull-request metadata record. -/
def meta_w : PRMeta :=
  ⟨"Add feature", some "desc", "main", "feature", "t0", "t1"⟩

/-- Seven concrete changed files. -/
def files7 : List PRFile :=
  [⟨"a.py", some "+import os"⟩, ⟨"b.py", none⟩, ⟨"c.js", some "+let x"⟩,
   ⟨"d.md", some "+# title"⟩, ⟨"e", none⟩, ⟨"f.PY", some "+pass"⟩,
   ⟨"g.txt", some "+hello"⟩]

/-- A configuration reviewing at most 5 files in batches of 3. -/
def cfg_w : PRReviewConfig := { max_files_to_review := 5, batch_size := 3 }

/-- An environment where every remote operation succeeds except the content
fetch of `b.py`. -/
def env_w : Env :=
  { repoRes := .ok ()
    pullRes := .ok meta_w
    filesRes := .ok files7
    contentRes := fun p => if p = "b.py" then .error "404" else .ok (some "body")
    completeRes := fun _ => .ok "Looks good"
    createReviewRes := fun _ => .ok () }

/-- The Markdown sections of the review body, written as the spec words it:
one `"### {filename}\n{analysis}\n\n"` section per finding, concatenated in
collection order. -/
def sections_spec : List Finding → String
  | [] => ""
  | r :: t =>
    ("### " ++ r.filename ++ "\n" ++ r.analysis ++ "\n\n") ++ sections_spec t

/-- Selects the chat-completion submissions out of a call trace. -/
def chat_calls (t : List Call) : List Call :=
  t.filter fun c =>
    match c with
    | .chat_completion _ => true
    | _ => false


/-- Variant of `env_w` with the content fetch of `b.py` repaired (everything else,
including every other file's content, identical). -/
def env_w2 : Env :=
  { env_w with
    contentRes := fun p =>
      if p = "b.py" then .ok (some "fixed") else .ok (some "body") }

/-- An environment whose completion service always fails. -/
def env_cfail : Env :=
  { env_w with
    contentRes := fun _ => .ok (some "src")
    completeRes := fun _ => .error "rate limited" }

/-- An all-successful environment with an empty changed-file list. -/
def env_e : Env :=
  { repoRes := .ok ()
    pullRes := .ok meta_w
    filesRes := .ok []
    contentRes := fun _ => .ok none
    completeRes := fun _ => .ok "ok"
    createReviewRes := fun _ => .ok () }

/-- An environment whose repository lookup fails. -/
def env_fail : Env :=
  { env_w with repoRes := .error "404 repo not found" }

/-- Variant of `env_w` with every content fetch succeeding but empty (`.ok none`). -/
def env_c10 : Env :=
  { env_w with contentRes := fun _ => .ok none }


/-! ### Batching lemmas -/

/-- Ceiling-division recurrence: for `0 < B` and `0 < n`,
`⌈n/B⌉ = ⌈(n-B)/B⌉ + 1` (with the ceilings written as `(x + B - 1) / B`). -/
theorem ceil_div_succ (B n : Nat) (hB : 0 < B) (hn : 0 < n) :
    (n + B - 1) / B = ((n - B) + B - 1) / B + 1 := by
  rcases Nat.le_total n B with h | h
  · have h2 : (n - B + B - 1) / B = 0 := Nat.div_eq_of_lt (by omega)
    have h5 : (n + B - 1) / B = 1 :=
      @Nat.div_eq_of_lt_le 1 B (n + B - 1) (by omega) (by omega)
    rw [h2, h5]
  · have h2 : n + B - 1 = (n - 1) + B := by omega
    have h3 : n - B + B - 1 = n - 1 := by omega
    rw [h2, h3, Nat.add_div_right _ hB]

/-- The batch loop unrolls one step: for a non-empty list the first batch is
`files[0:B]` and the rest are the batches of `files[B:]`. -/
theorem batch_slices_cons (B : Nat) (hB : 0 < B) (l : List PRFile)
    (hl : l ≠ []) :
    batch_slices B l = l.take B :: batch_slices B (l.drop B) := by
  have hn : 0 < l.length := List.length_pos.mpr hl
  unfold batch_slices py_range_step
  rw [List.length_drop, ceil_div_succ B l.length hB hn, List.range'_succ]
  simp only [List.map_cons, List.drop_zero, Nat.zero_add]
  congr 1
  have hr : List.range' B ((l.length - B + B - 1) / B) B =
      List.map (fun x => B + x)
        (List.range' 0 ((l.length - B + B - 1) / B) B) := by
    exact (List.map_add_range' B 0 ((l.length - B + B - 1) / B) B).symm
  rw [hr, List.map_map]
  congr 1
  funext i
  simp only [Function.comp_apply]
  rw [List.drop_drop]

/-- Concatenating the batches gives back the original list (for `B ≥ 1`). -/
theorem flatten_batch_slices (B : Nat) (hB : 0 < B) (l : List PRFile) :
    (batch_slices B l).flatten = l := by
  by_cases hl : l = []
  · subst hl
    simp [batch_slices, py_range_step,
      Nat.div_eq_of_lt (show B - 1 < B by omega)]
  · rw [batch_slices_cons B hB l hl, List.flatten_cons,
      flatten_batch_slices B hB (l.drop B), List.take_append_drop]
termination_by l.length
decreasing_by
  simp only [List.length_drop]
  have hn : 0 < l.length := List.length_pos.mpr hl
  omega

/-- A successful `analyze_code_changes` run returns exactly one finding per
truncated file, in the original file order. -/
theorem analyze_code_changes_result (cfg : PRReviewConfig) (env : Env)
    (fl : List PRFile) (m : PRMeta) (hB : 0 < cfg.batch_size)
    (hr : env.repoRes = .ok ()) (hp : env.pullRes = .ok m)
    (hf : env.filesRes = .ok fl) :
    (analyze_code_changes cfg env).result =
      .ok ((fl.take cfg.max_files_to_review).map
        fun f => (analyze_file cfg env f).1) := by
  simp only [analyze_code_changes, hr, hp, hf]
  congr 1
  rw [List.map_map]
  have h1 : (List.map Prod.fst ∘ List.map (analyze_file cfg env)) =
      List.map (fun f => (analyze_file cfg env f).1) := by
    funext batch
    simp [List.map_map, Function.comp_def]
  rw [h1, ← List.map_flatten, flatten_batch_slices cfg.batch_size hB]

/-- C1: for every run of `analyze_code_changes` over a changed-file list of
length `L`, the returned findings list has length exactly
`min(L, max_files_to_review)`, whatever the outcomes of the per-file content
fetches and completions: every attempted file yields a finding. -/
theorem c1_findings_length (cfg : PRReviewConfig) (env : Env)
    (fl : List PRFile) (m : PRMeta) (hB : 0 < cfg.batch_size)
    (hr : env.repoRes = .ok ()) (hp : env.pullRes = .ok m)
    (hf : env.filesRes = .ok fl) :
    ∃ rs, (analyze_code_changes cfg env).result = .ok rs ∧
      rs.length = min fl.length cfg.max_files_to_review := by
  refine ⟨_, analyze_code_changes_result cfg env fl m hB hr hp hf, ?_⟩
  simp only [List.length_map, List.length_take]
  omega


/-- C3: for batch size `B ≥ 1` the orchestrator splits the truncated list
into `⌈N/B⌉` consecutive batches (`N` the truncated count, the ceiling
written `(N + B - 1) / B`); batch `i` (0-indexed) holds exactly the files at
indices `[i*B, min((i+1)*B, N))` in host-returned order, and a successful
run's findings list carries those files' findings in the original order. -/
theorem c3_batch_partition (cfg : PRReviewConfig) (env : Env)
    (fl : List PRFile) (m : PRMeta) (hB : 0 < cfg.batch_size)
    (hr : env.repoRes = .ok ()) (hp : env.pullRes = .ok m)
    (hf : env.filesRes = .ok fl) :
    (batch_slices cfg.batch_size (fl.take cfg.max_files_to_review)).length =
      ((fl.take cfg.max_files_to_review).length + cfg.batch_size - 1) /
        cfg.batch_size
    ∧ (∀ i j, i < (batch_slices cfg.batch_size
          (fl.take cfg.max_files_to_review)).length →
        ((batch_slices cfg.batch_size
            (fl.take cfg.max_files_to_review))[i]?.getD [])[j]? =
          if i * cfg.batch_size + j <
              min ((i + 1) * cfg.batch_size)
                (fl.take cfg.max_files_to_review).length
          then (fl.take cfg.max_files_to_review)[i * cfg.batch_size + j]?
          else none)
    ∧ (analyze_code_changes cfg env).result =
        .ok ((fl.take cfg.max_files_to_review).map
          fun f => (analyze_file cfg env f).1) := by
  set B := cfg.batch_size with hBdef
  set t := fl.take cfg.max_files_to_review with ht
  have hlen : (batch_slices B t).length = (t.length + B - 1) / B := by
    simp [batch_slices, py_range_step]
  refine ⟨hlen, ?_, analyze_code_changes_result cfg env fl m hB hr hp hf⟩
  intro i j hi
  have hib : (batch_slices B t)[i]? = some ((t.drop (B * i)).take B) := by
    simp only [batch_slices, List.getElem?_map, py_range_step]
    rw [List.getElem?_range' 0 B (by rw [hlen] at hi; exact hi)]
    simp
  rw [hib, Option.getD_some, List.getElem?_take]
  have he : (i + 1) * B = i * B + B := by ring
  have hm : B * i = i * B := Nat.mul_comm B i
  by_cases hj : j < B
  · rw [if_pos hj, List.getElem?_drop, hm]
    by_cases hlt : i * B + j < t.length
    · rw [if_pos (by omega)]
    · rw [if_neg (by omega), List.getElem?_eq_none (by omega)]
  · rw [if_neg hj, if_neg (by omega)]


/-- Witness for C1 at the concrete run: 7 files, `max_files_to_review = 5`,
`batch_size = 3`, one failing content fetch. -/
theorem c1_findings_length_witness :
    0 < cfg_w.batch_size ∧
    ∃ rs, (analyze_code_changes cfg_w env_w).result = .ok rs ∧
      rs.length = min files7.length cfg_w.max_files_to_review :=
  ⟨by decide, c1_findings_length cfg_w env_w files7 meta_w (by decide) rfl rfl rfl⟩

/-- Witness for C3 at the same concrete run (batches of sizes 3 and 2). -/
theorem c3_batch_partition_witness :
    (batch_slices cfg_w.batch_size (files7.take cfg_w.max_files_to_review)).length =
      ((files7.take cfg_w.max_files_to_review).length + cfg_w.batch_size - 1) /
        cfg_w.batch_size
    ∧ (∀ i j, i < (batch_slices cfg_w.batch_size
          (files7.take cfg_w.max_files_to_review)).length →
        ((batch_slices cfg_w.batch_size
            (files7.take cfg_w.max_files_to_review))[i]?.getD [])[j]? =
          if i * cfg_w.batch_size + j <
              min ((i + 1) * cfg_w.batch_size)
                (files7.take cfg_w.max_files_to_review).length
          then (files7.take cfg_w.max_files_to_review)[i * cfg_w.batch_size + j]?
          else none)
    ∧ (analyze_code_changes cfg_w env_w).result =
        .ok ((files7.take cfg_w.max_files_to_review).map
          fun f => (analyze_file cfg_w env_w f).1) :=
  c3_batch_partition cfg_w env_w files7 meta_w (by decide) rfl rfl rfl

/-! ### Review body and publication -/

/-- The `review_body` loop accumulates exactly the spec sections after any
initial prefix. -/
theorem foldl_sections (init : String) (l : List Finding) :
    l.foldl
      (fun acc r => acc ++ "### " ++ r.filename ++ "\n" ++ r.analysis ++ "\n\n")
      init = init ++ sections_spec l := by
  induction l generalizing init with
  | nil => simp [sections_spec]
  | cons r t ih =>
    rw [List.foldl_cons, ih, sections_spec]
    simp [String.append_assoc]

/-- The assembled review body is the fixed header followed by the
per-finding sections. -/
theorem review_body_eq (reviews : List Finding) :
    review_body reviews =
      "## AI Code Review Summary\n\n" ++ sections_spec reviews :=
  foldl_sections _ reviews

/-- C4: for every findings list (the empty one included), the body handed to
`create_review` is exactly the header `"## AI Code Review Summary\n\n"`
followed by one `"### {filename}\n{analysis}\n\n"` section per finding in
collection order, and nothing else. -/
theorem c4_published_body (env : Env) (m : PRMeta) (reviews : List Finding)
    (hr : env.repoRes = .ok ()) (hp : env.pullRes = .ok m) :
    (post_review env reviews).trace =
      [Call.get_repo, Call.get_pull,
       Call.create_review
         ("## AI Code Review Summary\n\n" ++ sections_spec reviews)] := by
  simp only [post_review, hr, hp]
  rw [review_body_eq]

/-- Witness for C4: a two-finding list and the empty list. -/
theorem c4_published_body_witness :
    (post_review env_w
        [⟨"a.py", "fine"⟩, ⟨"b.py", "Error analyzing file: 404"⟩]).trace =
      [Call.get_repo, Call.get_pull,
       Call.create_review
         ("## AI Code Review Summary\n\n" ++
          sections_spec [⟨"a.py", "fine"⟩, ⟨"b.py", "Error analyzing file: 404"⟩])]
    ∧ (post_review env_w []).trace =
      [Call.get_repo, Call.get_pull,
       Call.create_review ("## AI Code Review Summary\n\n" ++ sections_spec [])] :=
  ⟨c4_published_body env_w meta_w _ rfl rfl,
   c4_published_body env_w meta_w [] rfl rfl⟩

/-- The trace of `fetch_pr_details` is a prefix of repo, pull, files. -/
theorem fetch_pr_details_trace_shape (env : Env) :
    (fetch_pr_details env).trace = [Call.get_repo] ∨
    (fetch_pr_details env).trace = [Call.get_repo, Call.get_pull] ∨
    (fetch_pr_details env).trace =
      [Call.get_repo, Call.get_pull, Call.get_files] := by
  rcases hr : env.repoRes with e | u
  · simp [fetch_pr_details, hr]
  · rcases hp : env.pullRes with e | m
    · simp [fetch_pr_details, hr, hp]
    · rcases hf : env.filesRes with e | fl
      · simp [fetch_pr_details, hr, hp, hf]
      · simp [fetch_pr_details, hr, hp, hf]

/-- C5: if the initial metadata fetch fails, `review_pr` propagates that
error and the run performs no `create_review` call at all. -/
theorem c5_no_publish_on_failed_fetch (cfg : PRReviewConfig) (env : Env)
    (e : String) (h : (fetch_pr_details env).result = .error e) :
    (review_pr cfg env).result = .error e ∧
    ∀ b, Call.create_review b ∉ (review_pr cfg env).trace := by
  constructor
  · simp only [review_pr, h]
  · intro b
    simp only [review_pr, h]
    rcases fetch_pr_details_trace_shape env with h1 | h1 | h1 <;> rw [h1] <;> simp

/-- Witness for C5: the repository lookup fails with a 404. -/
theorem c5_no_publish_on_failed_fetch_witness :
    (review_pr default_config env_fail).result = .error "404 repo not found" ∧
    ∀ b, Call.create_review b ∉ (review_pr default_config env_fail).trace :=
  c5_no_publish_on_failed_fetch default_config env_fail "404 repo not found" rfl

/-! ### Per-file traces and the full-run trace -/

/-- A per-file task calls only the content fetch and (possibly) one chat
completion. -/
theorem analyze_file_trace_shape (cfg : PRReviewConfig) (env : Env)
    (file : PRFile) :
    (analyze_file cfg env file).2 = [Call.get_contents file.filename] ∨
    ∃ req, (analyze_file cfg env file).2 =
      [Call.get_contents file.filename, Call.chat_completion req] := by
  unfold analyze_file analyze_file_content
  rcases hc : env.contentRes file.filename with e | o
  · left
    simp
  · right
    rcases hcomp : env.completeRes
        (build_request cfg (o.getD "") file.filename (file.patch.getD ""))
      with e | txt <;>
      exact ⟨build_request cfg (o.getD "") file.filename (file.patch.getD ""),
        by simp [hcomp]⟩

/-- No metadata call ever occurs inside a per-file task. -/
theorem no_meta_calls_in_analyze_file (cfg : PRReviewConfig) (env : Env)
    (file : PRFile) :
    Call.get_repo ∉ (analyze_file cfg env file).2 ∧
    Call.get_pull ∉ (analyze_file cfg env file).2 ∧
    Call.get_files ∉ (analyze_file cfg env file).2 := by
  rcases analyze_file_trace_shape cfg env file with h | ⟨req, h⟩ <;>
    rw [h] <;> simp

/-- Calls absent from every per-file trace are absent from the whole batch
trace. -/
theorem not_in_batch_trace (cfg : PRReviewConfig) (env : Env)
    (bs : List (List PRFile)) (c : Call)
    (hc : ∀ file, c ∉ (analyze_file cfg env file).2) :
    c ∉ ((bs.map fun batch => batch.map (analyze_file cfg env)).map
        (fun br => (br.map Prod.snd).flatten)).flatten := by
  intro hmem
  rw [List.mem_flatten] at hmem
  obtain ⟨l, hl, hcl⟩ := hmem
  rw [List.mem_map] at hl
  obtain ⟨br, hbr, rfl⟩ := hl
  rw [List.mem_map] at hbr
  obtain ⟨batch, hbatch, rfl⟩ := hbr
  rw [List.mem_flatten] at hcl
  obtain ⟨tr, htr, hctr⟩ := hcl
  rw [List.map_map, List.mem_map] at htr
  obtain ⟨file, hfile, hfe⟩ := htr
  rw [← hfe] at hctr
  exact hc file hctr

/-- A successful metadata phase pins down `fetch_pr_details` entirely. -/
theorem fetch_pr_details_ok (env : Env) (fl : List PRFile) (m : PRMeta)
    (hr : env.repoRes = .ok ()) (hp : env.pullRes = .ok m)
    (hf : env.filesRes = .ok fl) :
    fetch_pr_details env =
      ⟨[Call.get_repo, Call.get_pull, Call.get_files],
       .ok ⟨m.title, m.body, fl.map (·.filename), m.base_ref, m.head_ref,
            m.created_at, m.updated_at⟩⟩ := by
  simp [fetch_pr_details, hr, hp, hf]

/-- With the metadata phase succeeding, the analysis trace is the three
metadata calls followed by per-file calls only. -/
theorem analyze_code_changes_trace (cfg : PRReviewConfig) (env : Env)
    (fl : List PRFile) (m : PRMeta)
    (hr : env.repoRes = .ok ()) (hp : env.pullRes = .ok m)
    (hf : env.filesRes = .ok fl) :
    ∃ T, (analyze_code_changes cfg env).trace =
        [Call.get_repo, Call.get_pull, Call.get_files] ++ T ∧
      Call.get_repo ∉ T ∧ Call.get_pull ∉ T ∧ Call.get_files ∉ T := by
  simp only [analyze_code_changes, hr, hp, hf]
  refine ⟨_, rfl, ?_, ?_, ?_⟩
  · exact not_in_batch_trace cfg env _ _
      (fun file => (no_meta_calls_in_analyze_file cfg env file).1)
  · exact not_in_batch_trace cfg env _ _
      (fun file => (no_meta_calls_in_analyze_file cfg env file).2.1)
  · exact not_in_batch_trace cfg env _ _
      (fun file => (no_meta_calls_in_analyze_file cfg env file).2.2)

/-- Decomposition of a full successful run: the three stages fetch the
metadata independently, and the run ends in a `create_review` call. -/
theorem review_pr_trace_parts (cfg : PRReviewConfig) (env : Env)
    (fl : List PRFile) (m : PRMeta) (hB : 0 < cfg.batch_size)
    (hr : env.repoRes = .ok ()) (hp : env.pullRes = .ok m)
    (hf : env.filesRes = .ok fl) :
    ∃ T b, (review_pr cfg env).trace =
        ([Call.get_repo, Call.get_pull, Call.get_files] ++
         ([Call.get_repo, Call.get_pull, Call.get_files] ++ T) ++
         [Call.get_repo, Call.get_pull, Call.create_review b]) ∧
      Call.get_repo ∉ T ∧ Call.get_pull ∉ T ∧ Call.get_files ∉ T := by
  have hfd := fetch_pr_details_ok env fl m hr hp hf
  obtain ⟨T, hT, h1, h2, h3⟩ := analyze_code_changes_trace cfg env fl m hr hp hf
  have ha := analyze_code_changes_result cfg env fl m hB hr hp hf
  refine ⟨T,
    review_body ((fl.take cfg.max_files_to_review).map
      fun f => (analyze_file cfg env f).1), ?_, h1, h2, h3⟩
  simp only [review_pr, hfd, ha, post_review, hr, hp, hT]

/-- C2: a per-file failure — content fetch or completion — yields a finding
for that file whose analysis is the human-readable error text; findings of
files with other names are unaffected by that file's outcome; and with the
metadata phase intact the run still reaches its `create_review` call. -/
theorem c2_per_file_isolation (cfg : PRReviewConfig) (env env2 : Env)
    (file : PRFile) (e : String) :
    (env.contentRes file.filename = .error e →
      (analyze_file cfg env file).1 =
        ⟨file.filename, "Error analyzing file: " ++ e⟩)
    ∧ (∀ o, env.contentRes file.filename = .ok o →
        env.completeRes (build_request cfg (o.getD "") file.filename
          (file.patch.getD "")) = .error e →
        (analyze_file cfg env file).1 =
          ⟨file.filename, "Error analyzing file: " ++ e⟩)
    ∧ ((∀ g, g ≠ file.filename → env2.contentRes g = env.contentRes g) →
        env2.completeRes = env.completeRes →
        ∀ f2 : PRFile, f2.filename ≠ file.filename →
          analyze_file cfg env2 f2 = analyze_file cfg env f2)
    ∧ (∀ fl m, 0 < cfg.batch_size → env.repoRes = .ok () →
        env.pullRes = .ok m → env.filesRes = .ok fl →
        ∃ b, Call.create_review b ∈ (review_pr cfg env).trace) := by
  refine ⟨?_, ?_, ?_, ?_⟩
  · intro h
    simp [analyze_file, h]
  · intro o ho hcomp
    simp [analyze_file, ho, analyze_file_content, hcomp]
  · intro hagree hcomp f2 hne
    unfold analyze_file analyze_file_content
    rw [hagree f2.filename hne, hcomp]
  · intro fl m hB hr hp hf
    obtain ⟨T, b, hT, -, -, -⟩ :=
      review_pr_trace_parts cfg env fl m hB hr hp hf
    exact ⟨b, by rw [hT]; simp⟩

/-- Witness for C2: content fetch of `b.py` fails with `404`; a completion
failure (`rate limited`) on `a.py`; repairing `b.py` leaves `a.py`'s result
unchanged; the failing run still publishes. -/
theorem c2_per_file_isolation_witness :
    (analyze_file default_config env_w ⟨"b.py", none⟩).1 =
      ⟨"b.py", "Error analyzing file: " ++ "404"⟩
    ∧ (analyze_file default_config env_cfail ⟨"a.py", some "+import os"⟩).1 =
      ⟨"a.py", "Error analyzing file: " ++ "rate limited"⟩
    ∧ analyze_file default_config env_w ⟨"a.py", some "+import os"⟩ =
      analyze_file default_config env_w2 ⟨"a.py", some "+import os"⟩
    ∧ ∃ b, Call.create_review b ∈ (review_pr default_config env_w).trace :=
  ⟨(c2_per_file_isolation default_config env_w env_w2 ⟨"b.py", none⟩ "404").1
      rfl,
   (c2_per_file_isolation default_config env_cfail env_w
      ⟨"a.py", some "+import os"⟩ "rate limited").2.1 (some "src") rfl rfl,
   (c2_per_file_isolation default_config env_w2 env_w ⟨"b.py", none⟩
      "404").2.2.1
     (fun g hg => by simp [env_w, env_w2, hg])
     rfl ⟨"a.py", some "+import os"⟩ (by decide),
   (c2_per_file_isolation default_config env_w env_w2 ⟨"b.py", none⟩
      "404").2.2.2 files7 meta_w (by decide) rfl rfl rfl⟩

/-- C9 counterexample: in a fully successful run over an empty file list,
the pull request is fetched three times and the file list twice — not once
as the claim states. -/
theorem c9_counterexample :
    (review_pr default_config env_e).trace.count Call.get_pull = 3 ∧
    (review_pr default_config env_e).trace.count Call.get_files = 2 := by
  decide

/-- C9 amended: the metadata is not cached: each of the three stages
re-fetches the repository and pull request, and both the details stage and
the analysis stage fetch the file list, so every successful run performs
exactly 3 `get_repo`, 3 `get_pull` and 2 `get_files` calls. -/
theorem c9_refetch_counts (cfg : PRReviewConfig) (env : Env)
    (fl : List PRFile) (m : PRMeta) (hB : 0 < cfg.batch_size)
    (hr : env.repoRes = .ok ()) (hp : env.pullRes = .ok m)
    (hf : env.filesRes = .ok fl) :
    (review_pr cfg env).trace.count Call.get_repo = 3 ∧
    (review_pr cfg env).trace.count Call.get_pull = 3 ∧
    (review_pr cfg env).trace.count Call.get_files = 2 := by
  obtain ⟨T, b, hT, h1, h2, h3⟩ :=
    review_pr_trace_parts cfg env fl m hB hr hp hf
  rw [hT]
  refine ⟨?_, ?_, ?_⟩ <;>
    simp [List.count_append, List.count_cons,
      List.count_eq_zero.mpr h1, List.count_eq_zero.mpr h2,
      List.count_eq_zero.mpr h3]

/-- Witness for C9 (amended) on the concrete 7-file run. -/
theorem c9_refetch_counts_witness :
    (review_pr cfg_w env_w).trace.count Call.get_repo = 3 ∧
    (review_pr cfg_w env_w).trace.count Call.get_pull = 3 ∧
    (review_pr cfg_w env_w).trace.count Call.get_files = 2 :=
  c9_refetch_counts cfg_w env_w files7 meta_w (by decide) rfl rfl rfl

/-! ### Language key, prompt purity, session teardown -/

/-- Applying `py_split` to a list free of the separator returns the whole list as the
single piece. -/
theorem py_split_no_sep (c : Char) (l : List Char) (h : ∀ x ∈ l, x ≠ c) :
    py_split c l = [l] := by
  induction l with
  | nil => rfl
  | cons x xs ih =>
    have hx : ¬ x = c := h x (by simp)
    have hxs := ih (fun y hy => h y (by simp [hy]))
    simp only [py_split, hxs, if_neg hx]

/-- C6 counterexample: for a path without a `'.'` the derived language key
is the whole lower-cased path, not the empty string claimed. -/
theorem c6_counterexample :
    file_extension "Makefile" = "makefile" ∧
    ¬ file_extension "Makefile" = "" := by
  constructor
  · decide
  · decide

/-- Output of `py_split` is never the empty list of pieces. -/
theorem py_split_ne_nil (c : Char) (l : List Char) : py_split c l ≠ [] := by
  cases l with
  | nil => simp [py_split]
  | cons x xs =>
    by_cases hx : x = c
    · simp [py_split, hx]
    · rcases h : py_split c xs with _ | ⟨y, ys⟩ <;>
        simp [py_split, hx, h]

/-- A list containing the separator splits into at least two pieces. -/
theorem py_split_two_le (c : Char) (l : List Char) (hc : c ∈ l) :
    2 ≤ (py_split c l).length := by
  induction l with
  | nil => simp at hc
  | cons x xs ih =>
    by_cases hx : x = c
    · have h1 : py_split c xs ≠ [] := py_split_ne_nil c xs
      have h2 : 0 < (py_split c xs).length := List.length_pos.mpr h1
      simp [py_split, hx]
      omega
    · have hcx : c ∈ xs := (List.mem_cons.mp hc).resolve_left fun h => hx h.symm
      have h2 := ih hcx
      rcases h : py_split c xs with _ | ⟨y, ys⟩
      · exact absurd h (py_split_ne_nil c xs)
      · rw [h] at h2
        simp only [py_split, hx, if_neg hx, h]
        simp at h2 ⊢
        omega

/-- On a non-empty list, `getLastD` ignores its default. -/
theorem getLastD_default_irrel {α : Type} (l : List α) (h : l ≠ [])
    (a b : α) : l.getLastD a = l.getLastD b := by
  cases l with
  | nil => exact absurd rfl h
  | cons z zs => rw [List.getLastD_cons, List.getLastD_cons]

/-- The last piece of a split at the last separator occurrence: splitting
`s ++ c :: t` with `t` free of `c` always ends in the piece `t`. -/
theorem py_split_last_after_sep (c : Char) (t : List Char)
    (ht : ∀ x ∈ t, x ≠ c) :
    ∀ s : List Char, (py_split c (s ++ c :: t)).getLastD [] = t := by
  intro s
  induction s with
  | nil =>
    rw [List.nil_append]
    simp [py_split, py_split_no_sep c t ht, List.getLastD_cons]
  | cons x s2 ih =>
    rw [List.cons_append]
    by_cases hx : x = c
    · have hstep : py_split c (x :: (s2 ++ c :: t)) =
          [] :: py_split c (s2 ++ c :: t) := by
        simp only [py_split]
        rw [if_pos hx]
      rw [hstep, List.getLastD_cons]
      exact ih
    · have hmem : c ∈ s2 ++ c :: t := by simp
      have h2 := py_split_two_le c (s2 ++ c :: t) hmem
      rcases h : py_split c (s2 ++ c :: t) with _ | ⟨y, ys⟩
      · exact absurd h (py_split_ne_nil c _)
      · have hys : ys ≠ [] := by
          rw [h] at h2
          simp at h2
          exact List.length_pos.mp (by omega)
        have hstep : py_split c (x :: (s2 ++ c :: t)) = (x :: y) :: ys := by
          simp only [py_split]
          rw [if_neg hx, h]
        rw [hstep, List.getLastD_cons,
          getLastD_default_irrel ys hys (x :: y) y]
        rw [h, List.getLastD_cons] at ih
        exact ih

/-- C6 amended: the language key is the lower-cased suffix after the last
`'.'` of the path — stated by decomposing the path's characters as
`s ++ '.' :: t` with `t` dot-free, whereupon the key is `t` lower-cased;
for a path containing no `'.'` the key is the whole lower-cased path (not
the empty string); and looking up an absent key in the language rules
yields the empty sequence, never an error. -/
theorem c6_extension_and_rules (f : String) (s t : List Char)
    (d : List (String × List String)) (k : String) :
    (f.data = s ++ '.' :: t → '.' ∉ t →
      file_extension f = ⟨t.map Char.toLower⟩)
    ∧ ('.' ∉ f.data → file_extension f = f.toLower)
    ∧ ((∀ kv ∈ d, kv.1 ≠ k) → dict_get d k = []) := by
  refine ⟨?_, ?_, ?_⟩
  · intro hf ht
    unfold file_extension
    rw [hf, py_split_last_after_sep '.' t
      (fun x hx hxc => ht (by rw [← hxc]; exact hx)) s]
  · intro h
    unfold file_extension
    rw [py_split_no_sep '.' f.data
      (fun x hx hxc => h (by rw [← hxc]; exact hx))]
    rw [String.toLower, String.map_eq]
    simp [List.getLastD]
  · intro hk
    unfold dict_get
    rw [List.find?_eq_none.mpr (fun kv hkv => by simp [hk kv hkv])]

/-- Witness for C6 (amended): a dotted path (`"main.PY"`, whose key is the
lower-cased suffix `"py"`), a dot-free path (`"Makefile"`), and an absent
key. -/
theorem c6_extension_and_rules_witness :
    file_extension "main.PY" = ⟨['P', 'Y'].map Char.toLower⟩ ∧
    file_extension "Makefile" = "Makefile".toLower ∧
    dict_get default_config.language_specific_rules "makefile" = [] :=
  ⟨(c6_extension_and_rules "main.PY" ['m', 'a', 'i', 'n'] ['P', 'Y']
      default_config.language_specific_rules "makefile").1 (by decide) (by decide),
   (c6_extension_and_rules "Makefile" [] []
      default_config.language_specific_rules "makefile").2.1 (by decide),
   (c6_extension_and_rules "Makefile" [] []
      default_config.language_specific_rules "makefile").2.2 (by decide)⟩

/-- Bounds on how often `__aexit__` touches each handle. -/
theorem aexit_counts (st : SessionState) (env : CloseEnv) :
    (aexit st env).1.count CloseCall.close_session ≤ 1 ∧
    (aexit st env).1.count CloseCall.close_client ≤ 1 := by
  obtain ⟨sp, cp⟩ := st
  obtain ⟨sc, cc⟩ := env
  cases sp <;> cases cp <;> rcases sc with e1 | u1 <;> rcases cc with e2 | u2 <;>
    simp [aexit]

/-- With both handles present and both closes succeeding, `__aexit__`
closes each exactly once and returns normally. -/
theorem aexit_both_ok (st : SessionState) (env : CloseEnv)
    (hs : st.session_present = true) (hc : st.client_present = true)
    (h1 : env.session_close = .ok ()) (h2 : env.client_close = .ok ()) :
    aexit st env =
      ([CloseCall.close_session, CloseCall.close_client], .ok ()) := by
  obtain ⟨sp, cp⟩ := st
  obtain ⟨sc, cc⟩ := env
  simp only at hs hc h1 h2
  subst hs; subst hc; subst h1; subst h2
  rfl

/-- If the session close raises, the error propagates and the client handle
is never closed. -/
theorem aexit_session_error (st : SessionState) (env : CloseEnv) (e : String)
    (hs : st.session_present = true) (he : env.session_close = .error e) :
    (aexit st env).2 = .error e ∧
    CloseCall.close_client ∉ (aexit st env).1 := by
  obtain ⟨sp, cp⟩ := st
  obtain ⟨sc, cc⟩ := env
  simp only at hs he
  subst hs; subst he
  simp [aexit]

/-- If the client close raises (after a successful session close), the error
propagates. -/
theorem aexit_client_error (st : SessionState) (env : CloseEnv) (e : String)
    (hs : st.session_present = true) (hc : st.client_present = true)
    (h1 : env.session_close = .ok ()) (h2 : env.client_close = .error e) :
    (aexit st env).2 = .error e := by
  obtain ⟨sp, cp⟩ := st
  obtain ⟨sc, cc⟩ := env
  simp only at hs hc h1 h2
  subst hs; subst hc; subst h1; subst h2
  rfl

/-- C7 amended: on release each handle is closed at most once — exactly once
each when both closes succeed — but close errors are NOT swallowed: an error
closing the session propagates and prevents the client handle from being
closed, and an error closing the client propagates as well. -/
theorem c7_close_errors_propagate (st : SessionState) (env : CloseEnv) :
    ((aexit st env).1.count CloseCall.close_session ≤ 1 ∧
     (aexit st env).1.count CloseCall.close_client ≤ 1)
    ∧ (st.session_present = true → st.client_present = true →
        env.session_close = .ok () → env.client_close = .ok () →
        aexit st env =
          ([CloseCall.close_session, CloseCall.close_client], .ok ()))
    ∧ (∀ e, st.session_present = true → env.session_close = .error e →
        (aexit st env).2 = .error e ∧
        CloseCall.close_client ∉ (aexit st env).1)
    ∧ (∀ e, st.session_present = true → st.client_present = true →
        env.session_close = .ok () → env.client_close = .error e →
        (aexit st env).2 = .error e) :=
  ⟨aexit_counts st env,
   fun hs hc h1 h2 => aexit_both_ok st env hs hc h1 h2,
   fun e hs he => aexit_session_error st env e hs he,
   fun e hs hc h1 h2 => aexit_client_error st env e hs hc h1 h2⟩

/-- C7 counterexample: with both handles present and `session.close()`
raising, the error propagates (it is not swallowed) and the completion
client is never closed. -/
theorem c7_counterexample :
    (aexit ⟨true, true⟩ ⟨Except.error "close failed", Except.ok ()⟩).2 =
      Except.error "close failed" ∧
    CloseCall.close_client ∉
      (aexit ⟨true, true⟩ ⟨Except.error "close failed", Except.ok ()⟩).1 :=
  ⟨rfl, by decide⟩

/-- Witness for C7 (amended) at the three relevant concrete teardowns. -/
theorem c7_close_errors_propagate_witness :
    aexit ⟨true, true⟩ ⟨Except.ok (), Except.ok ()⟩ =
      ([CloseCall.close_session, CloseCall.close_client], Except.ok ())
    ∧ ((aexit ⟨true, true⟩ ⟨Except.error "boom", Except.ok ()⟩).2 =
         Except.error "boom" ∧
       CloseCall.close_client ∉
         (aexit ⟨true, true⟩ ⟨Except.error "boom", Except.ok ()⟩).1)
    ∧ (aexit ⟨true, true⟩ ⟨Except.ok (), Except.error "late"⟩).2 =
        Except.error "late" :=
  ⟨(c7_close_errors_propagate ⟨true, true⟩ ⟨Except.ok (), Except.ok ()⟩).2.1
      rfl rfl rfl rfl,
   (c7_close_errors_propagate ⟨true, true⟩
      ⟨Except.error "boom", Except.ok ()⟩).2.2.1 "boom" rfl rfl,
   (c7_close_errors_propagate ⟨true, true⟩
      ⟨Except.ok (), Except.error "late"⟩).2.2.2 "late" rfl rfl rfl rfl⟩

/-- C8: the prompt builder is pure — the system and user prompts depend only
on the file path, the diff patch and the language rule set looked up for the
path; in particular two invocations agreeing on those (whatever the fetched
contents and the rest of the configuration) produce byte-identical
prompts. -/
theorem c8_prompt_deterministic (cfg1 cfg2 : PRReviewConfig)
    (a b fn patch : String)
    (h : dict_get cfg1.language_specific_rules (file_extension fn) =
         dict_get cfg2.language_specific_rules (file_extension fn)) :
    (build_request cfg1 a fn patch).system_content =
      (build_request cfg2 b fn patch).system_content ∧
    (build_request cfg1 a fn patch).user_content =
      (build_request cfg2 b fn patch).user_content := by
  constructor
  · rfl
  · simp only [build_request]
    rw [h]

/-- Witness for C8: same path, patch and rule set, different contents. -/
theorem c8_prompt_deterministic_witness :
    (build_request default_config "content one" "a.py" "+x").system_content =
      (build_request default_config "content two" "a.py" "+x").system_content ∧
    (build_request default_config "content one" "a.py" "+x").user_content =
      (build_request default_config "content two" "a.py" "+x").user_content :=
  c8_prompt_deterministic default_config default_config
    "content one" "content two" "a.py" "+x" rfl

/-- C10: the completion submission for a file is independent of the fetched
file content: whenever the content fetch succeeds (with any content, empty
included), the submitted chat call is exactly the request built from the
path, the patch and the configuration — so two runs differing only in
fetched content submit identical prompts. -/
theorem c10_content_independent (cfg : PRReviewConfig) (env1 env2 : Env)
    (file : PRFile) (o1 o2 : Option String)
    (h1 : env1.contentRes file.filename = .ok o1)
    (h2 : env2.contentRes file.filename = .ok o2) :
    chat_calls (analyze_file cfg env1 file).2 =
      chat_calls (analyze_file cfg env2 file).2 ∧
    chat_calls (analyze_file cfg env1 file).2 =
      [Call.chat_completion
        (build_request cfg "" file.filename (file.patch.getD ""))] := by
  have key : ∀ (env : Env) (o : Option String),
      env.contentRes file.filename = .ok o →
      chat_calls (analyze_file cfg env file).2 =
        [Call.chat_completion
          (build_request cfg "" file.filename (file.patch.getD ""))] := by
    intro env o h
    have hb : build_request cfg (o.getD "") file.filename
        (file.patch.getD "") =
        build_request cfg "" file.filename (file.patch.getD "") := rfl
    unfold analyze_file analyze_file_content
    rcases hcomp : env.completeRes (build_request cfg (o.getD "")
        file.filename (file.patch.getD "")) with e | t <;>
      rw [hb] at hcomp <;>
      simp [h, hb, hcomp, chat_calls]
  exact ⟨(key env1 o1 h1).trans (key env2 o2 h2).symm, key env1 o1 h1⟩

/-- Witness for C10: same file, one run fetching real content, the other an
empty (`decoded_content`-less) object. -/
theorem c10_content_independent_witness :
    chat_calls (analyze_file default_config env_w
        ⟨"a.py", some "+import os"⟩).2 =
      chat_calls (analyze_file default_config env_c10
        ⟨"a.py", some "+import os"⟩).2 ∧
    chat_calls (analyze_file default_config env_w
        ⟨"a.py", some "+import os"⟩).2 =
      [Call.chat_completion
        (build_request default_config "" "a.py" "+import os")] :=
  c10_content_independent default_config env_w env_c10
    ⟨"a.py", some "+import os"⟩ (some "body") none rfl rfl

end PRReview
